import Mathlib

/-!
Shallow embedding of the `EditorView` controller of prosemirror-view
(`src/src/index.js`).  The document model, the rendered-tree reconciler
(`viewdesc`), the input module, the DOM-coordinate helpers and the
decoration module are external collaborators (they live outside
`src/src/index.js`); their observable outcomes are supplied as oracle
fields of an `Env` record, and the controller mutations they would
perform are recorded in an explicit event trace.
-/

namespace PMView

/-- JS values, as far as prop resolution needs them: nullability
(`undefined`/`null` versus everything else) and truthiness. -/
inductive JVal where
  | undef
  | nullv
  | boolv (b : Bool)
  | numv (n : Int)
  | strv (s : String)
  | obj (id : Nat)
deriving DecidableEq

/-- JS truthiness of a value. -/
def JVal.truthy : JVal → Bool
  | .undef => false
  | .nullv => false
  | .boolv b => b
  | .numv n => n != 0
  | .strv s => s != ""
  | .obj _ => true

/-- JS `x != null` (loose inequality, excluding both `null` and `undefined`). -/
def JVal.nonNull : JVal → Bool
  | .undef => false
  | .nullv => false
  | _ => true

/-- `f ? f(prop) : prop` — apply the optional callback of `someProp`. -/
def applyF (f : Option (JVal → JVal)) (v : JVal) : JVal :=
  match f with
  | some g => g v
  | none => v

/-- The loop body of `EditorView.someProp` (src/src/index.js lines 269-277)
over the ordered list of prop values: skip values that are `null`
or `undefined`, apply the callback, return the first truthy result. -/
def somePropList (f : Option (JVal → JVal)) : List JVal → JVal
  | [] => JVal.undef
  | p :: ps =>
      if p.nonNull && (applyF f p).truthy then applyF f p else somePropList f ps

/-- `EditorView.someProp(propName, f)`: the direct prop value
(`this._props[propName]`) is examined first, then each plugin prop value
(`plugins[i].props[propName]`) in registration order. -/
def someProp (direct : JVal) (plugins : List JVal) (f : Option (JVal → JVal)) : JVal :=
  somePropList f (direct :: plugins)

/-- Modelled from the spec (C3 comparison point): resolution collects the
direct value followed by the plugin values in registration order, drops the
non-supplied (null) entries, applies the callback to each survivor, and
returns the first truthy result; resolution stops there. -/
def resolveFirstTruthy (direct : JVal) (plugins : List JVal)
    (f : Option (JVal → JVal)) : JVal :=
  ((((direct :: plugins).filter JVal.nonNull).map (applyF f)).find? JVal.truthy).getD JVal.undef

/-! ### Outer document decoration (`computeDocDeco`, `getEditable`) -/

/-- Association-list lookup, mirroring reading `attrs[attr]` from the JS
attribute object (`undefined` when absent). -/
def lookupAttr (attrs : List (String × String)) (k : String) : Option String :=
  (attrs.find? (fun p => p.1 == k)).map (fun p => p.2)

/-- JS property assignment `attrs[k] = v` on an object with unique keys:
an existing key keeps its position, a new key is appended. -/
def setAttr : List (String × String) → String → String → List (String × String)
  | [], k, v => [(k, v)]
  | p :: ps, k, v => if p.1 == k then (k, v) :: ps else p :: setAttr ps k v

/-- One iteration of the `for (let attr in value)` loop of `computeDocDeco`
(src/src/index.js lines 480-485): class names concatenate with a space;
any other attribute is written only when the slot is JS-falsy (absent or
the empty string) and is never `contenteditable` or `nodeName`. -/
def docDecoAttrStep (attrs : List (String × String)) (kv : String × String) :
    List (String × String) :=
  if kv.1 == "class" then
    setAttr attrs "class" (((lookupAttr attrs "class").getD "undefined") ++ " " ++ kv.2)
  else if ((lookupAttr attrs kv.1).getD "" == "") && kv.1 != "contenteditable"
      && kv.1 != "nodeName" then
    setAttr attrs kv.1 kv.2
  else attrs

/-- The attribute object built by `computeDocDeco` (src/src/index.js lines
473-486).  `sources` is the list of already-evaluated non-null `attributes`
prop values in `someProp` resolution order (the callback given to
`someProp` returns `undefined`, so every registrant is visited). -/
def docDecoAttrs (editable : Bool) (sources : List (List (String × String))) :
    List (String × String) :=
  sources.foldl (fun attrs value => value.foldl docDecoAttrStep attrs)
    [("class", "ProseMirror"), ("contenteditable", toString editable)]

/-- A node decoration as produced by `Decoration.node(from, to, attrs)`. -/
structure DecorationNode where
  fromPos : Nat
  toPos : Nat
  attrs : List (String × String)
deriving DecidableEq

/-- `computeDocDeco(view)`: a single node decoration spanning the whole
document carrying the merged attribute object. -/
def computeDocDeco (editable : Bool) (sources : List (List (String × String)))
    (docContentSize : Nat) : List DecorationNode :=
  [⟨0, docContentSize, docDecoAttrs editable sources⟩]

/-- The per-`(key, value)` class accumulation performed by the merge: every
entry with key `"class"` appends `" " ++ value` to the running class string. -/
def classConcat (base : String) (l : List (String × String)) : String :=
  l.foldl (fun c kv => if kv.1 == "class" then c ++ " " ++ kv.2 else c) base

/-- `getEditable(view)` (src/src/index.js lines 501-503): the view is
editable unless some `editable` prop function (direct first, then plugins)
returns `false` on the state.  `fns` is the list of non-null `editable`
prop values in resolution order; `σ` stands for the editor state type. -/
def getEditable {σ : Type} (fns : List (σ → Bool)) (s : σ) : Bool :=
  !(fns.any fun f => f s == false)

/-! ### Selections and editor states (prosemirror-state, an external
package; modelled by the data this controller reads from them) -/

/-- Discriminant between text selections and `NodeSelection`s. -/
inductive SelKind where
  | text
  | node
deriving DecidableEq

/-- A logical selection.  `sharedDepth` is `$anchor.sharedDepth(head)` and
`startAt d` is `$anchor.start(d)`, the two resolved-position queries used
by `selectionContextChanged`. -/
structure Selection where
  anchor : Nat
  head : Nat
  kind : SelKind
  sharedDepth : Nat
  startAt : Nat → Nat

/-- `selection.eq(other)`: logical equality of selections. -/
def Selection.eqb (a b : Selection) : Bool :=
  a.anchor == b.anchor && a.head == b.head && a.kind == b.kind

/-- `selection.empty`: a collapsed selection. -/
def Selection.empty (s : Selection) : Bool :=
  s.anchor == s.head

/-- `selectionContextChanged(sel1, sel2)` (src/src/index.js lines 505-508):
compare the start position of the two anchors at the smaller of the two
shared depths. -/
def selectionContextChanged (sel1 sel2 : Selection) : Bool :=
  let depth := min sel1.sharedDepth sel2.sharedDepth
  sel1.startAt depth != sel2.startAt depth

/-- An editor state, restricted to the fields the controller reads.
`doc` and `plugins` are identity tokens (the controller only compares the
plugin list by identity); `storedMarks` is the truthiness of
`state.storedMarks` (non-null). -/
structure EditorState where
  doc : Nat
  docContentSize : Nat
  selection : Selection
  storedMarks : Bool
  scrollToSelection : Nat
  plugins : Nat

/-! ### The view object and its environment -/

/-- The prop configuration the controller resolves during an update:
the non-null `nodeViews` prop values, the `attributes` prop values
(functions of the state, `none` when the function returns a falsy value),
and the `editable` prop functions, each in `someProp` resolution order for
the state being applied. -/
structure Props where
  nodeViewsSources : List (List (String × Nat))
  attrSources : List (EditorState → Option (List (String × String)))
  editableFns : List (EditorState → Bool)

/-- The mutable fields of `EditorView` that `updateStateInner` and `focus`
read or write.  `docViewGen` is the identity of the current `docView`
(bumped when a fresh tree is built by `docViewDesc`); `trackWrites` is the
truthiness of `this.trackWrites`. -/
structure View where
  state : EditorState
  composing : Bool
  editable : Bool
  markCursor : Bool
  cursorWrapper : Option Nat
  nodeViews : List (String × Nat)
  docViewGen : Nat
  mouseDown : Bool
  trackWrites : Bool
  props : Props

/-- Outcomes of the external collaborator calls made during one update:
the reconciler verdicts (`docView.matchesNode`, `docView.update`), the
browser flags, DOM-level reads, and whether the external `selectionToDOM`
call raises.  Each field is the value the corresponding call would return
during this update. -/
structure Env where
  matchesNode : Bool
  patchOk : Bool
  ie : Bool
  chrome : Bool
  overflowAnchorAbsent : Bool
  focusNodeTruthy : Bool
  trackWritesCleared : Bool
  curSelectionEq : Bool
  anchorInRightPlace : Bool
  handleScrollHandled : Bool
  selectionToDOMThrows : Bool

/-- The externally observable actions of the controller, in program order.
`docViewPatch ok` is the call `docView.update(...)` together with its
result; `docViewRebuild` is `docViewDesc(...)`; the scroll events mirror
lines 217-229 of src/src/index.js. -/
inductive Event where
  | clearComposition
  | ensureListeners
  | observerStop
  | observerStart
  | docViewPatch (ok : Bool)
  | updateOuterDecoEmpty
  | docViewDestroy
  | docViewRebuild
  | storeScrollPos
  | selectionToDOM (force : Bool)
  | syncNodeSelection
  | setCurSelection
  | pluginViews
  | scrollTopZero
  | offerHandleScroll
  | scrollIntoView
  | resetScrollPos
  | focusDom
deriving DecidableEq

/-- Scroll behavior of one update, line 173-174 of src/src/index.js. -/
inductive ScrollMode where
  | reset
  | toSelection
  | preserve
deriving DecidableEq

/-- `let scroll = reconfigured ? "reset" : state.scrollToSelection >
prev.scrollToSelection ? "to selection" : "preserve"`. -/
def scrollOf (prev s : EditorState) (reconfigured : Bool) : ScrollMode :=
  if reconfigured then ScrollMode.reset
  else if s.scrollToSelection > prev.scrollToSelection then ScrollMode.toSelection
  else ScrollMode.preserve

/-- `buildNodeViews(view)` (src/src/index.js lines 510-517): merge every
`nodeViews` prop object, first registrant per name wins. -/
def buildNodeViews (sources : List (List (String × Nat))) : List (String × Nat) :=
  sources.foldl
    (fun result obj =>
      obj.foldl
        (fun result kv => if result.any (fun p => p.1 == kv.1) then result else result ++ [kv])
        result)
    []

/-- `changedNodeViews(a, b)` (src/src/index.js lines 519-527): some key of
`a` maps differently in `b`, or the key counts differ. -/
def changedNodeViews (a b : List (String × Nat)) : Bool :=
  a.any (fun kv => ((b.find? (fun p => p.1 == kv.1)).map (fun p => p.2)) != some kv.2)
    || a.length != b.length

/-- The `redraw` flag of `updateStateInner`: set when the update is a
reconfiguration and the rebuilt node-view registry differs from the
previous one (lines 160-165). -/
def redrawOf (v : View) (reconfigured : Bool) : Bool :=
  reconfigured && changedNodeViews (buildNodeViews v.props.nodeViewsSources) v.nodeViews

/-- The `updateDoc` flag (line 175): redraw forced, or the current doc
view does not match the new document and decorations. -/
def updateDocOf (v : View) (reconfigured : Bool) (env : Env) : Bool :=
  redrawOf v reconfigured || !env.matchesNode

/-- The `updateSel` flag (lines 155-158 and 176): stored marks arriving
during composition, or a document update, or a changed selection. -/
def updateSelOf (v : View) (s : EditorState) (reconfigured : Bool) (env : Env) : Bool :=
  (s.storedMarks && v.composing) || updateDocOf v reconfigured env
    || !(Selection.eqb s.selection v.state.selection)

/-- The condition of line 177: `scroll == "preserve" && updateSel &&
this.dom.style.overflowAnchor == null && storeScrollPos(this)` — the
scroll snapshot is taken exactly when this holds (`storeScrollPos` always
returns a truthy snapshot object). -/
def storeScrollTaken (v : View) (s : EditorState) (reconfigured : Bool) (env : Env) : Bool :=
  (scrollOf v.state s reconfigured == ScrollMode.preserve)
    && updateSelOf v s reconfigured env && env.overflowAnchorAbsent

/-- The tail of `updateStateInner` (lines 217-229): resolve the scroll
behavior.  In the "to selection" case the `handleScrollToSelection` prop
is offered first; `scrollRectIntoView` runs only when no handler claimed
the scroll. -/
def scrollStep (scroll : ScrollMode) (oldScrollPos : Bool) (env : Env) : List Event :=
  match scroll with
  | ScrollMode.reset => [Event.scrollTopZero]
  | ScrollMode.toSelection =>
      Event.offerHandleScroll :: (if env.handleScrollHandled then [] else [Event.scrollIntoView])
  | ScrollMode.preserve => if oldScrollPos then [Event.resetScrollPos] else []

/-- `this.composing` after lines 155-158: stored marks arriving during an
active composition terminate it.  `clearComposition` is modelled from the
spec (the input module is outside src/src/index.js): terminating the
composition makes `composing` false. -/
def composingAfter (v : View) (s : EditorState) : Bool :=
  if s.storedMarks && v.composing then false else v.composing

/-- `this.trackWrites` at line 199: inside the `updateDoc` branch, Chrome
sets it to the selection focus node (line 193), and the external tree
patch or rebuild clears it when it writes to the tracked node. -/
def trackWritesAfter (v : View) (reconfigured : Bool) (env : Env) : Bool :=
  if updateDocOf v reconfigured env && env.trackWritesCleared then false
  else if updateDocOf v reconfigured env && env.chrome then env.focusNodeTruthy
  else v.trackWrites

/-- The final `forceSelUpdate` flag (lines 186-187 and 199): the
cross-browser corruption detector, or the Chrome focus-node write-tracking
kludge (`chromeKludge && !this.trackWrites`). -/
def forceSelOf (v : View) (s : EditorState) (reconfigured : Bool) (env : Env) : Bool :=
  (updateDocOf v reconfigured env && (env.ie || env.chrome) && !(composingAfter v s)
      && !(Selection.empty v.state.selection) && !(Selection.empty s.selection)
      && selectionContextChanged v.state.selection s.selection)
    || (updateDocOf v reconfigured env && env.chrome && env.focusNodeTruthy
      && !(trackWritesAfter v reconfigured env))

/-- The condition of line 205-206 choosing the full `selectionToDOM` write
over the cheap mouse-drag path. -/
def fullWriteOf (v : View) (s : EditorState) (reconfigured : Bool) (env : Env) : Bool :=
  forceSelOf v s reconfigured env
    || !(v.mouseDown && env.curSelectionEq && env.anchorInRightPlace)

/-- Events of lines 152-177 that precede the `updateSel` block:
composition termination, listener refresh on reconfiguration, and the
scroll snapshot. -/
def trPreOf (v : View) (s : EditorState) (reconfigured : Bool) (env : Env) : List Event :=
  (if s.storedMarks && v.composing then [Event.clearComposition] else [])
    ++ (if reconfigured then [Event.ensureListeners] else [])
    ++ (if storeScrollTaken v s reconfigured env then [Event.storeScrollPos] else [])

/-- Whether lines 194-197 replace the doc view: a forced redraw skips the
patch; otherwise the in-place patch runs and a failure triggers the
rebuild. -/
def rebuiltOf (v : View) (reconfigured : Bool) (env : Env) : Bool :=
  updateDocOf v reconfigured env && (redrawOf v reconfigured || !env.patchOk)

/-- Events of the `if (updateDoc)` block (lines 188-200): the in-place
patch attempt (skipped on redraw) and, on redraw or patch failure, the
outer-decoration clear, the destroy and the rebuild. -/
def trDocOf (v : View) (reconfigured : Bool) (env : Env) : List Event :=
  if updateDocOf v reconfigured env then
    (if redrawOf v reconfigured then [] else [Event.docViewPatch env.patchOk])
      ++ (if rebuiltOf v reconfigured env then
            [Event.updateOuterDecoEmpty, Event.docViewDestroy, Event.docViewRebuild]
          else [])
  else []

/-- Events of the selection write (lines 205-211): the full write or the
cheap mouse-drag path. -/
def trWOf (v : View) (s : EditorState) (reconfigured : Bool) (env : Env) : List Event :=
  if fullWriteOf v s reconfigured env then
    [Event.selectionToDOM (forceSelOf v s reconfigured env)]
  else [Event.syncNodeSelection, Event.setCurSelection]

/-- Whether the update aborts with an exception: the external
`selectionToDOM` call runs (full write chosen within the `updateSel`
block) and raises. -/
def abortsOf (v : View) (s : EditorState) (reconfigured : Bool) (env : Env) : Bool :=
  updateSelOf v s reconfigured env && fullWriteOf v s reconfigured env
    && env.selectionToDOMThrows

/-- The full event trace of `updateStateInner` in program order. -/
def traceOf (v : View) (s : EditorState) (reconfigured : Bool) (env : Env) : List Event :=
  trPreOf v s reconfigured env
    ++ (if updateSelOf v s reconfigured env then
          Event.observerStop :: (trDocOf v reconfigured env
            ++ (if fullWriteOf v s reconfigured env && env.selectionToDOMThrows then []
                else trWOf v s reconfigured env
                  ++ Event.observerStart :: Event.pluginViews ::
                    scrollStep (scrollOf v.state s reconfigured)
                      (storeScrollTaken v s reconfigured env) env))
        else Event.pluginViews ::
          scrollStep (scrollOf v.state s reconfigured)
            (storeScrollTaken v s reconfigured env) env)

/-- The view fields after a completed (non-raising) update: the new state
is installed, the node-view registry is rebuilt on a changed
reconfiguration, editability and the cursor wrapper are recomputed, and
the doc view identity is bumped when a fresh tree was built.  The outer
decorations recomputed at line 171 are `computeDocDeco (getEditable ...)
(attrSources at s)` — see `computeDocDeco`; their value only feeds the
external reconciler, whose verdicts are the env oracles. -/
def viewAfter (v : View) (s : EditorState) (reconfigured : Bool) (env : Env) : View :=
  { v with
    state := s,
    composing := composingAfter v s,
    nodeViews := if redrawOf v reconfigured then buildNodeViews v.props.nodeViewsSources
                 else v.nodeViews,
    editable := getEditable v.props.editableFns s,
    cursorWrapper := if v.markCursor then some s.selection.head else none,
    trackWrites := if updateSelOf v s reconfigured env then trackWritesAfter v reconfigured env
                   else v.trackWrites,
    docViewGen := if updateSelOf v s reconfigured env && rebuiltOf v reconfigured env
                  then v.docViewGen + 1 else v.docViewGen }

/-- `updateStateInner(state, reconfigured)` (src/src/index.js lines
151-230): the updated view (`none` when the external `selectionToDOM`
call raised and the exception propagated to the caller) together with the
event trace up to completion or up to the raise. -/
def updateStateInner (v : View) (s : EditorState) (reconfigured : Bool) (env : Env) :
    Option View × List Event :=
  (if abortsOf v s reconfigured env then none else some (viewAfter v s reconfigured env),
   traceOf v s reconfigured env)

/-- `updateState(state)` (src/src/index.js lines 147-149): the update is a
reconfiguration when the plugin list identity changed. -/
def updateState (v : View) (s : EditorState) (env : Env) : Option View × List Event :=
  updateStateInner v s (v.state.plugins != s.plugins) env

/-- `focus()` (src/src/index.js lines 293-298): stop the observer, focus
the editable DOM, write the selection (no force flag), restart the
observer.  As in `updateStateInner`, a raising `selectionToDOM` call
propagates. -/
def focus (v : View) (env : Env) : Option View × List Event :=
  if env.selectionToDOMThrows then
    (none, Event.observerStop :: (if v.editable then [Event.focusDom] else []))
  else
    (some v,
      Event.observerStop :: ((if v.editable then [Event.focusDom] else [])
        ++ [Event.selectionToDOM false, Event.observerStart]))

/-! ### Trace predicates -/

/-- Events that mutate the rendered tree or the platform selection. -/
def isMut : Event → Bool
  | Event.docViewPatch _ => true
  | Event.updateOuterDecoEmpty => true
  | Event.docViewDestroy => true
  | Event.docViewRebuild => true
  | Event.selectionToDOM _ => true
  | Event.syncNodeSelection => true
  | Event.focusDom => true
  | _ => false

/-- Scroll-resolution events (the output of `scrollStep`). -/
def isScrollEvent : Event → Bool
  | Event.scrollTopZero => true
  | Event.offerHandleScroll => true
  | Event.scrollIntoView => true
  | Event.resetScrollPos => true
  | _ => false

/-- Step of the mutation-observer discipline check: `some r` is a valid
run with the observer currently running (`r = true`) or paused; `none` is
a violation (a tree or selection mutation while observing, a pause while
already paused, or a resume while running). -/
def obsRun : Option Bool → Event → Option Bool
  | none, _ => none
  | some r, Event.observerStop => if r then some false else none
  | some r, Event.observerStart => if r then none else some true
  | some r, e => if isMut e && r then none else some r

/-- A trace observes the pause/resume discipline: starting with the
observer running, every mutation happens while it is paused, pauses and
resumes alternate, and the observer is running again at the end. -/
def bracketOK (tr : List Event) : Bool :=
  tr.foldl obsRun (some true) == some true

/-- `leadsWith pat l`: `pat` occurs at the head of `l`. -/
def leadsWith : List Event → List Event → Bool
  | [], _ => true
  | _ :: _, [] => false
  | b :: bs, t :: ts => b == t && leadsWith bs ts

/-- `hasBlock pat l`: `pat` occurs contiguously somewhere in `l`. -/
def hasBlock (pat : List Event) : List Event → Bool
  | [] => pat.isEmpty
  | t :: ts => leadsWith pat (t :: ts) || hasBlock pat ts

/-! ### Concrete fixtures used by counterexamples and witnesses -/

/-- A collapsed text selection at the document start. -/
def selW : Selection := ⟨0, 0, SelKind.text, 0, fun _ => 0⟩

/-- A non-collapsed text selection with shared depth 1. -/
def selW2 : Selection := ⟨0, 2, SelKind.text, 1, fun _ => 0⟩

/-- A non-collapsed text selection with shared depth 2 but the same start
position at every depth as `selW2`. -/
def selW3 : Selection := ⟨0, 3, SelKind.text, 2, fun _ => 0⟩

/-- An empty prop configuration. -/
def propsW : Props := ⟨[], [], []⟩

/-- A base editor state. -/
def stateW : EditorState := ⟨0, 4, selW, false, 0, 0⟩

/-- A base view holding `stateW`. -/
def viewW : View := ⟨stateW, false, true, false, none, [], 0, false, false, propsW⟩

/-- The base state with stored marks present. -/
def stateWm : EditorState := ⟨0, 4, selW, true, 0, 0⟩

/-- The base view with an active composition. -/
def viewWc : View := ⟨stateW, true, true, false, none, [], 0, false, false, propsW⟩

/-- A benign environment: the tree matches, nothing raises, no special
browser behavior except absent overflow anchoring. -/
def envW : Env := ⟨true, true, false, false, true, false, false, false, false, false, false⟩

/-- Environment in which the doc view does not match the new document and
the in-place patch fails. -/
def envW5 : Env := ⟨false, false, false, false, true, false, false, false, false, false, false⟩

/-- State whose selection is `selW2` (previous state of the C8 run). -/
def stateW8a : EditorState := ⟨0, 4, selW2, false, 0, 0⟩

/-- State whose selection is `selW3` (new state of the C8 run). -/
def stateW8b : EditorState := ⟨1, 4, selW3, false, 0, 0⟩

/-- View holding `stateW8a`. -/
def viewW8 : View := ⟨stateW8a, false, true, false, none, [], 0, false, false, propsW⟩

/-- Chrome environment in which the doc view needs patching (and the
in-place patch succeeds). -/
def envW8 : Env := ⟨false, true, false, true, true, false, false, false, false, false, false⟩

/-- Environment in which the doc view needs patching and the external
`selectionToDOM` call raises. -/
def envW9 : Env := ⟨false, true, false, false, true, false, false, false, false, false, true⟩

/-! ### Lemmas about the attribute merge -/

theorem lookupAttr_setAttr_self (attrs : List (String × String)) (k v : String) :
    lookupAttr (setAttr attrs k v) k = some v := by
  induction attrs with
  | nil => simp [setAttr, lookupAttr]
  | cons p ps ih =>
      by_cases h : p.1 = k
      · simp [setAttr, lookupAttr, h]
      · simp only [setAttr, beq_iff_eq, h, if_false]
        simpa [lookupAttr, List.find?_cons, h] using ih

theorem lookupAttr_setAttr_other (attrs : List (String × String)) (k v k' : String)
    (h : k' ≠ k) : lookupAttr (setAttr attrs k v) k' = lookupAttr attrs k' := by
  induction attrs with
  | nil => simp [setAttr, lookupAttr, h, Ne.symm h]
  | cons p ps ih =>
      by_cases hp : p.1 = k
      · simp [setAttr, lookupAttr, hp, List.find?_cons, Ne.symm h]
      · simp only [setAttr, beq_iff_eq, hp, if_false]
        by_cases hq : p.1 = k'
        · simp [lookupAttr, List.find?_cons, hq]
        · simpa [lookupAttr, List.find?_cons, hq] using ih

theorem docDecoAttrStep_class (attrs : List (String × String)) (kv : String × String)
    (c : String) (h : lookupAttr attrs "class" = some c) :
    lookupAttr (docDecoAttrStep attrs kv) "class" =
      some (if kv.1 == "class" then c ++ " " ++ kv.2 else c) := by
  by_cases hk : kv.1 = "class"
  · simp [docDecoAttrStep, hk, h, lookupAttr_setAttr_self]
  · simp only [docDecoAttrStep, beq_iff_eq, hk, if_false]
    split
    · simpa [hk] using lookupAttr_setAttr_other attrs kv.1 kv.2 "class" (fun hc => hk hc.symm) ▸ h
    · simp [hk, h]

theorem docDecoAttrStep_reserved (attrs : List (String × String)) (kv : String × String)
    (k : String) (hk : k = "contenteditable" ∨ k = "nodeName") :
    lookupAttr (docDecoAttrStep attrs kv) k = lookupAttr attrs k := by
  have hkc : k ≠ "class" := by rcases hk with h | h <;> simp [h]
  by_cases h1 : kv.1 = "class"
  · simp only [docDecoAttrStep, beq_iff_eq, h1, if_true]
    exact lookupAttr_setAttr_other attrs "class" _ k hkc
  · simp only [docDecoAttrStep, beq_iff_eq, h1, if_false]
    split
    · rename_i hcond
      have hne : k ≠ kv.1 := by
        rcases hk with h | h <;> intro he <;>
          simp [h, ← he] at hcond
      exact lookupAttr_setAttr_other attrs kv.1 kv.2 k hne
    · rfl

theorem docDecoAttrStep_persist (attrs : List (String × String)) (kv : String × String)
    (k v : String) (hk : k ≠ "class") (hv : v ≠ "")
    (h : lookupAttr attrs k = some v) :
    lookupAttr (docDecoAttrStep attrs kv) k = some v := by
  by_cases h1 : kv.1 = "class"
  · simp only [docDecoAttrStep, beq_iff_eq, h1, if_true]
    rw [lookupAttr_setAttr_other attrs "class" _ k hk]
    exact h
  · simp only [docDecoAttrStep, beq_iff_eq, h1, if_false]
    by_cases h2 : kv.1 = k
    · have : lookupAttr attrs kv.1 = some v := h2 ▸ h
      simp [this, hv, h]
    · split
      · rw [lookupAttr_setAttr_other attrs kv.1 kv.2 k (fun he => h2 he.symm)]
        exact h
      · exact h

theorem foldl_docDecoAttrStep_class (l : List (String × String))
    (attrs : List (String × String)) (c : String)
    (h : lookupAttr attrs "class" = some c) :
    lookupAttr (l.foldl docDecoAttrStep attrs) "class" = some (classConcat c l) := by
  induction l generalizing attrs c with
  | nil => simpa [classConcat] using h
  | cons kv kvs ih =>
      have step := docDecoAttrStep_class attrs kv c h
      by_cases hk : kv.1 = "class"
      · simp only [List.foldl_cons, classConcat, List.foldl_cons, beq_iff_eq, hk, if_true] at *
        exact ih _ _ step
      · simp only [List.foldl_cons, classConcat, List.foldl_cons, beq_iff_eq, hk, if_false] at *
        exact ih _ _ step

theorem foldl_docDecoAttrStep_reserved (l : List (String × String))
    (attrs : List (String × String)) (k : String)
    (hk : k = "contenteditable" ∨ k = "nodeName") :
    lookupAttr (l.foldl docDecoAttrStep attrs) k = lookupAttr attrs k := by
  induction l generalizing attrs with
  | nil => rfl
  | cons kv kvs ih =>
      simp only [List.foldl_cons]
      rw [ih, docDecoAttrStep_reserved attrs kv k hk]

theorem foldl_docDecoAttrStep_persist (l : List (String × String))
    (attrs : List (String × String)) (k v : String) (hk : k ≠ "class") (hv : v ≠ "")
    (h : lookupAttr attrs k = some v) :
    lookupAttr (l.foldl docDecoAttrStep attrs) k = some v := by
  induction l generalizing attrs with
  | nil => exact h
  | cons kv kvs ih =>
      simp only [List.foldl_cons]
      exact ih _ (docDecoAttrStep_persist attrs kv k v hk hv h)

theorem foldl_sources_class (srcs : List (List (String × String)))
    (attrs : List (String × String)) (c : String)
    (h : lookupAttr attrs "class" = some c) :
    lookupAttr (srcs.foldl (fun a val => val.foldl docDecoAttrStep a) attrs) "class" =
      some (classConcat c srcs.flatten) := by
  induction srcs generalizing attrs c with
  | nil => simpa [classConcat] using h
  | cons src rest ih =>
      simp only [List.foldl_cons, List.flatten_cons]
      rw [ih _ _ (foldl_docDecoAttrStep_class src attrs c h)]
      simp [classConcat, List.foldl_append]

theorem docDecoAttrs_class (e : Bool) (srcs : List (List (String × String))) :
    lookupAttr (docDecoAttrs e srcs) "class" =
      some (classConcat "ProseMirror" srcs.flatten) := by
  rw [docDecoAttrs]
  exact foldl_sources_class srcs _ "ProseMirror" (by simp [lookupAttr])

theorem docDecoAttrs_reserved (e : Bool) (srcs : List (List (String × String)))
    (k : String) (hk : k = "contenteditable" ∨ k = "nodeName") :
    lookupAttr (docDecoAttrs e srcs) k =
      lookupAttr [("class", "ProseMirror"), ("contenteditable", toString e)] k := by
  rw [docDecoAttrs]
  generalize [("class", "ProseMirror"), ("contenteditable", toString e)] = attrs0
  induction srcs generalizing attrs0 with
  | nil => rfl
  | cons src rest ih =>
      simp only [List.foldl_cons]
      rw [ih, foldl_docDecoAttrStep_reserved src attrs0 k hk]

theorem foldl_sources_persist (srcs : List (List (String × String)))
    (attrs : List (String × String)) (k v : String) (hk : k ≠ "class") (hv : v ≠ "")
    (h : lookupAttr attrs k = some v) :
    lookupAttr (srcs.foldl (fun a val => val.foldl docDecoAttrStep a) attrs) k = some v := by
  induction srcs generalizing attrs with
  | nil => exact h
  | cons src rest ih =>
      simp only [List.foldl_cons]
      exact ih _ (foldl_docDecoAttrStep_persist src attrs k v hk hv h)

theorem docDecoAttrs_persist (e : Bool) (srcs more : List (List (String × String)))
    (k v : String) (hk : k ≠ "class") (hv : v ≠ "")
    (h : lookupAttr (docDecoAttrs e srcs) k = some v) :
    lookupAttr (docDecoAttrs e (srcs ++ more)) k = some v := by
  rw [docDecoAttrs, List.foldl_append]
  exact foldl_sources_persist more _ k v hk hv h

theorem classConcat_shape (l : List (String × String)) (c r : String)
    (h : c = "ProseMirror" ++ r) (hr : r = "" ∨ ∃ r2, r = " " ++ r2) :
    ∃ r3, classConcat c l = "ProseMirror" ++ r3 ∧ (r3 = "" ∨ ∃ r4, r3 = " " ++ r4) := by
  induction l generalizing c r with
  | nil => exact ⟨r, h, hr⟩
  | cons kv kvs ih =>
      show ∃ r3, classConcat (if kv.1 == "class" then c ++ " " ++ kv.2 else c) kvs
          = "ProseMirror" ++ r3 ∧ _
      by_cases hk : kv.1 = "class"
      · simp only [hk, beq_self_eq_true, if_true]
        refine ih (c ++ " " ++ kv.2) (r ++ (" " ++ kv.2)) ?_ ?_
        · rw [h, String.append_assoc, String.append_assoc]
        · rcases hr with hr | ⟨r2, hr⟩
          · subst hr
            exact Or.inr ⟨kv.2, by simp⟩
          · subst hr
            exact Or.inr ⟨r2 ++ (" " ++ kv.2), by rw [String.append_assoc]⟩
      · simp only [beq_iff_eq, hk, if_false]
        exact ih c r h hr

/-! ### Generic trace helpers -/

theorem mem_ite_list {α : Type} (a : α) (c : Prop) [Decidable c] (l1 l2 : List α) :
    (a ∈ (if c then l1 else l2)) ↔ ((c ∧ a ∈ l1) ∨ (¬c ∧ a ∈ l2)) := by
  split_ifs with h <;> simp [h]

theorem store_not_in_scrollStep (m : ScrollMode) (o : Bool) (env : Env) :
    Event.storeScrollPos ∉ scrollStep m o env := by
  cases m <;> simp only [scrollStep] <;> (try split_ifs) <;> simp

theorem store_not_in_trDoc (v : View) (r : Bool) (env : Env) :
    Event.storeScrollPos ∉ trDocOf v r env := by
  unfold trDocOf
  split_ifs <;> simp

theorem store_not_in_trW (v : View) (s : EditorState) (r : Bool) (env : Env) :
    Event.storeScrollPos ∉ trWOf v s r env := by
  unfold trWOf
  split_ifs <;> simp

theorem leadsWith_append (pat rest : List Event) : leadsWith pat (pat ++ rest) = true := by
  induction pat with
  | nil => rfl
  | cons a as ih => simp [leadsWith, ih]

theorem hasBlock_here (pat rest : List Event) : hasBlock pat (pat ++ rest) = true := by
  cases pat with
  | nil => cases rest <;> simp [hasBlock, leadsWith]
  | cons a as => simp [hasBlock, leadsWith, leadsWith_append]

theorem hasBlock_append_left (pat xs ys : List Event) (h : hasBlock pat ys = true) :
    hasBlock pat (xs ++ ys) = true := by
  induction xs with
  | nil => exact h
  | cons x xs ih => simp [hasBlock, ih]

/-! ### Claim theorems -/

/-- C3: `someProp` examines the direct caller-supplied prop value first
and then each plugin prop value in registration order; the first truthy
result of applying the supplied function to a non-null value (or the value
itself when no function is given) is returned and resolution stops there. -/
theorem C3_someProp_first_truthy (direct : JVal) (plugins : List JVal)
    (f : Option (JVal → JVal)) :
    someProp direct plugins f = resolveFirstTruthy direct plugins f := by
  rw [someProp, resolveFirstTruthy]
  generalize direct :: plugins = l
  induction l with
  | nil => rfl
  | cons p ps ih =>
      by_cases h1 : p.nonNull = true <;> by_cases h2 : (applyF f p).truthy = true <;>
        simp [somePropList, h1, h2, List.filter_cons, List.find?_cons, ih]

/-- C7 counterexample: the attribute `style` is given the value `""` by the
first `attributes` registrant, yet a later registrant changes it to
`"color:red"` — `!attrs[attr]` tests JS truthiness, not presence, so an
attribute that already has an (empty-string) value is overwritten. -/
theorem C7_counterexample :
    lookupAttr (docDecoAttrs true [[("style", "")]]) "style" = some "" ∧
    lookupAttr (docDecoAttrs true [[("style", "")], [("style", "color:red")]]) "style"
      = some "color:red" := by
  exact ⟨by decide, by decide⟩

/-- C7 (amended): the merged class attribute is the concatenation, with a
space separator, of every registrant's class entries in resolution order;
every other attribute is first-non-empty-wins — once it holds a non-empty
value, later registrants cannot change it (an empty-string value may still
be overwritten, and `contenteditable` and `nodeName` entries of
registrants are ignored). -/
theorem C7_attr_merge (e : Bool) (srcs more : List (List (String × String)))
    (k v : String) :
    lookupAttr (docDecoAttrs e srcs) "class"
        = some (classConcat "ProseMirror" srcs.flatten) ∧
    (k ≠ "class" → v ≠ "" → lookupAttr (docDecoAttrs e srcs) k = some v →
      lookupAttr (docDecoAttrs e (srcs ++ more)) k = some v) :=
  ⟨docDecoAttrs_class e srcs,
   fun hk hv h => docDecoAttrs_persist e srcs more k v hk hv h⟩

/-- C7 witness: a non-empty first value survives a later registrant. -/
theorem C7_witness :
    lookupAttr (docDecoAttrs true ([[("data-x", "a")]] ++ [[("data-x", "b")]])) "data-x"
      = some "a" :=
  (C7_attr_merge true [[("data-x", "a")]] [[("data-x", "b")]] "data-x" "a").2
    (by decide) (by decide) (by decide)

/-- C10: for every editable flag and every list of `attributes`-prop
registrants, the computed document decoration carries the merged attribute
object, whose `contenteditable` entry is the string form of the editable
flag, whose `nodeName` entry is absent, and whose class value starts with
the token `ProseMirror` (followed by nothing or by a space). -/
theorem C10_doc_deco_invariants (e : Bool) (srcs : List (List (String × String)))
    (n : Nat) :
    ((computeDocDeco e srcs n).map DecorationNode.attrs = [docDecoAttrs e srcs]) ∧
    lookupAttr (docDecoAttrs e srcs) "contenteditable" = some (toString e) ∧
    lookupAttr (docDecoAttrs e srcs) "nodeName" = none ∧
    ∃ r, lookupAttr (docDecoAttrs e srcs) "class" = some ("ProseMirror" ++ r) ∧
      (r = "" ∨ ∃ r2, r = " " ++ r2) := by
  refine ⟨rfl, ?_, ?_, ?_⟩
  · rw [docDecoAttrs_reserved e srcs _ (Or.inl rfl)]
    simp [lookupAttr]
  · rw [docDecoAttrs_reserved e srcs _ (Or.inr rfl)]
    simp [lookupAttr]
  · rw [docDecoAttrs_class]
    obtain ⟨r, hr1, hr2⟩ :=
      classConcat_shape srcs.flatten "ProseMirror" "" (by simp) (Or.inl rfl)
    exact ⟨r, by rw [hr1], hr2⟩

/-- C5 counterexample: in this update the tree IS being patched
(`updateDoc` holds: the doc view does not match), yet the scroll snapshot
is taken — the code (line 177) does not require "the tree is not being
patched". -/
theorem C5_counterexample :
    updateDocOf viewW false envW5 = true ∧
    Event.storeScrollPos ∈ (updateStateInner viewW stateW false envW5).2 := by
  exact ⟨by decide, by decide⟩

/-- C5 (amended): the scroll snapshot is taken exactly when a selection
resync is needed, scroll mode is "preserve" and the platform lacks
automatic scroll anchoring — whether or not the tree is being patched. -/
theorem C5_snapshot_condition (v : View) (s : EditorState) (r : Bool) (env : Env) :
    Event.storeScrollPos ∈ (updateStateInner v s r env).2 ↔
      (scrollOf v.state s r = ScrollMode.preserve ∧ updateSelOf v s r env = true ∧
        env.overflowAnchorAbsent = true) := by
  have hiff : (storeScrollTaken v s r env = true) ↔
      (scrollOf v.state s r = ScrollMode.preserve ∧ updateSelOf v s r env = true ∧
        env.overflowAnchorAbsent = true) := by
    simp [storeScrollTaken, and_assoc]
  rw [← hiff]
  show Event.storeScrollPos ∈ traceOf v s r env ↔ _
  simp [traceOf, trPreOf, List.mem_append, mem_ite_list,
    store_not_in_trDoc v r env, store_not_in_trW v s r env,
    store_not_in_scrollStep]

/-- C1: whenever the in-place patch of the doc view reports failure (the
tree needed patching, no redraw forced, `docView.update` returned false),
the controller clears the outer decorations, destroys the old doc view
and rebuilds it from scratch — consecutively, in that order — and the
update completes without raising (given the external selection write does
not raise, which is the only modelled exception source). -/
theorem C1_patch_failure_rebuilds (v : View) (s : EditorState) (r : Bool) (env : Env)
    (ht : env.selectionToDOMThrows = false)
    (hmatch : env.matchesNode = false)
    (hredraw : redrawOf v r = false)
    (hpatch : env.patchOk = false) :
    (updateStateInner v s r env).1 = some (viewAfter v s r env) ∧
    hasBlock [Event.docViewPatch false, Event.updateOuterDecoEmpty, Event.docViewDestroy,
      Event.docViewRebuild] (updateStateInner v s r env).2 = true := by
  have hdoc : updateDocOf v r env = true := by simp [updateDocOf, hredraw, hmatch]
  have hsel : updateSelOf v s r env = true := by simp [updateSelOf, hdoc]
  have hreb : rebuiltOf v r env = true := by simp [rebuiltOf, hdoc, hredraw, hpatch]
  have htd : trDocOf v r env = [Event.docViewPatch false, Event.updateOuterDecoEmpty,
      Event.docViewDestroy, Event.docViewRebuild] := by
    simp [trDocOf, hdoc, hredraw, hreb, hpatch]
  constructor
  · simp [updateStateInner, abortsOf, ht]
  · show hasBlock _ (traceOf v s r env) = true
    simp only [traceOf, hsel, htd, if_true]
    exact hasBlock_append_left _ _ _
      (hasBlock_append_left _ [Event.observerStop] _ (hasBlock_here _ _))

/-- C1 witness: a concrete update whose patch fails. -/
theorem C1_witness :
    (updateStateInner viewW stateW false envW5).1
        = some (viewAfter viewW stateW false envW5) ∧
    hasBlock [Event.docViewPatch false, Event.updateOuterDecoEmpty, Event.docViewDestroy,
      Event.docViewRebuild] (updateStateInner viewW stateW false envW5).2 = true :=
  C1_patch_failure_rebuilds viewW stateW false envW5 rfl rfl rfl rfl

/-- C2: when the new state carries stored marks while a composition is
active, the composition is terminated first (the very first event of the
update, hence before any tree patch) and `composing` is false afterwards,
and a selection resync is forced: the observer-stop block runs and a
selection write (full or cheap) occurs — with no assumption that the
document changed or that the selection differs. -/
theorem C2_stored_marks_end_composition (v : View) (s : EditorState) (r : Bool) (env : Env)
    (hm : s.storedMarks = true) (hc : v.composing = true)
    (ht : env.selectionToDOMThrows = false) :
    (updateStateInner v s r env).2.head? = some Event.clearComposition ∧
    ((updateStateInner v s r env).1 = some (viewAfter v s r env) ∧
      (viewAfter v s r env).composing = false) ∧
    Event.observerStop ∈ (updateStateInner v s r env).2 ∧
    (Event.selectionToDOM (forceSelOf v s r env) ∈ (updateStateInner v s r env).2 ∨
      Event.syncNodeSelection ∈ (updateStateInner v s r env).2) := by
  have hcl : (s.storedMarks && v.composing) = true := by simp [hm, hc]
  have hsel : updateSelOf v s r env = true := by simp [updateSelOf, hcl]
  have hnothrow : (fullWriteOf v s r env && env.selectionToDOMThrows) = false := by
    simp [ht]
  refine ⟨?_, ⟨?_, ?_⟩, ?_, ?_⟩
  · show (traceOf v s r env).head? = _
    simp [traceOf, trPreOf, hcl]
  · simp [updateStateInner, abortsOf, ht]
  · simp [viewAfter, composingAfter, hcl]
  · show Event.observerStop ∈ traceOf v s r env
    simp [traceOf, hsel, List.mem_append]
  · by_cases hfw : fullWriteOf v s r env = true
    · left
      show Event.selectionToDOM _ ∈ traceOf v s r env
      simp [traceOf, hsel, hnothrow, trWOf, hfw, ht, List.mem_append]
    · right
      show Event.syncNodeSelection ∈ traceOf v s r env
      simp [traceOf, hsel, hnothrow, trWOf, hfw, ht, List.mem_append]

/-- C2 witness: stored marks arrive during a composition while the
document, decorations and selection are unchanged. -/
theorem C2_witness :
    (updateStateInner viewWc stateWm false envW).2.head? = some Event.clearComposition ∧
    Event.observerStop ∈ (updateStateInner viewWc stateWm false envW).2 :=
  ⟨(C2_stored_marks_end_composition viewWc stateWm false envW rfl rfl rfl).1,
   (C2_stored_marks_end_composition viewWc stateWm false envW rfl rfl rfl).2.2.1⟩

/-- C4: applying the same state twice in a row is idempotent: on the
second application (`updateState` with the state produced by any
completed first application of that same state), given that the doc view
matches check succeeds, the trace contains no rendered-tree or selection
mutation and the selection-resync block is not entered. -/
theorem C4_idempotent_second_update (v v1 : View) (s : EditorState) (r1 : Bool)
    (env1 env2 : Env)
    (h1 : (updateStateInner v s r1 env1).1 = some v1)
    (h2 : env2.matchesNode = true) :
    (updateState v1 s env2).2.filter isMut = [] ∧
    Event.observerStop ∉ (updateState v1 s env2).2 := by
  have hab : v1 = viewAfter v s r1 env1 := by
    by_cases h : abortsOf v s r1 env1 = true
    · simp [updateStateInner, h] at h1
    · simp [updateStateInner, h] at h1
      exact h1.symm
  have hst : v1.state = s := by rw [hab]; rfl
  have hcomp : (s.storedMarks && v1.composing) = false := by
    rw [hab]
    show (s.storedMarks && composingAfter v s) = false
    cases hsm : s.storedMarks <;> cases hvc : v.composing <;>
      simp [composingAfter, hsm, hvc]
  have hr2 : (v1.state.plugins != s.plugins) = false := by rw [hst]; simp
  have hsel2 : updateSelOf v1 s false env2 = false := by
    simp [updateSelOf, hcomp, updateDocOf, redrawOf, h2, Selection.eqb, hst]
  have hscroll : scrollOf v1.state s false = ScrollMode.preserve := by
    rw [hst]; simp [scrollOf]
  have htr : (updateState v1 s env2).2 = [Event.pluginViews] := by
    rw [updateState, hr2]
    show traceOf v1 s false env2 = _
    simp [traceOf, trPreOf, hsel2, storeScrollTaken, hscroll, scrollStep, hcomp]
  rw [htr]
  exact ⟨rfl, by simp⟩

/-- C4 witness: the state of `viewW` is applied once more on top of the
result of its first application. -/
theorem C4_witness :
    (updateState (viewAfter viewW stateW false envW) stateW envW).2.filter isMut = [] ∧
    Event.observerStop ∉ (updateState (viewAfter viewW stateW false envW) stateW envW).2 :=
  C4_idempotent_second_update viewW (viewAfter viewW stateW false envW) stateW false
    envW envW rfl rfl

/-- C8 counterexample: a document-patching update on Chrome with two
non-empty selections, no composition and no write-tracking kludge, whose old and new
selections have different shared ancestor depths (1 versus 2) yet equal
start positions at the smaller depth: the code performs a non-forced
selection write (`selectionToDOM false`), while the claimed detector
("shared ancestor depth differs") would demand a forced resync. -/
theorem C8_counterexample :
    selW2.sharedDepth ≠ selW3.sharedDepth ∧
    Selection.empty selW2 = false ∧ Selection.empty selW3 = false ∧
    Event.selectionToDOM false ∈ (updateStateInner viewW8 stateW8b false envW8).2 ∧
    Event.selectionToDOM true ∉ (updateStateInner viewW8 stateW8b false envW8).2 := by
  refine ⟨by decide, by decide, by decide, by decide, by decide⟩

/-- C8 (amended): during a document-patching update on the affected
browsers, with both selections non-empty and no composition active, and
with the Chrome focus-node write-tracking kludge not firing, a full
selection resync is forced exactly when `selectionContextChanged` fires —
i.e. when the start positions of the two selections differ at the
minimum of their shared ancestor depths (not when the depths differ). -/
theorem C8_force_condition (v : View) (s : EditorState) (r : Bool) (env : Env)
    (hdoc : updateDocOf v r env = true)
    (hbrowser : (env.ie || env.chrome) = true)
    (hcomp : composingAfter v s = false)
    (hne1 : Selection.empty v.state.selection = false)
    (hne2 : Selection.empty s.selection = false)
    (hkludge : (env.chrome && env.focusNodeTruthy && env.trackWritesCleared) = false)
    (ht : env.selectionToDOMThrows = false) :
    Event.selectionToDOM true ∈ (updateStateInner v s r env).2 ↔
      selectionContextChanged v.state.selection s.selection = true := by
  have hforce : forceSelOf v s r env
      = selectionContextChanged v.state.selection s.selection := by
    cases hcl : env.trackWritesCleared <;> cases hch : env.chrome <;>
      cases hfn : env.focusNodeTruthy <;>
      simp_all [forceSelOf, trackWritesAfter, hdoc, hcomp, hne1, hne2]
  have hsel : updateSelOf v s r env = true := by simp [updateSelOf, hdoc]
  have hcond : (fullWriteOf v s r env && env.selectionToDOMThrows) = false := by simp [ht]
  show Event.selectionToDOM true ∈ traceOf v s r env ↔ _
  simp only [traceOf, hsel, if_true, hcond, Bool.false_eq_true, if_false, List.mem_append,
    List.mem_cons]
  constructor
  · intro hmem
    rcases hmem with h | h | h | h | h | h | h
    · exact absurd h (by unfold trPreOf; split_ifs <;> simp)
    · simp at h
    · exact absurd h (by unfold trDocOf; split_ifs <;> simp)
    · unfold trWOf at h
      split_ifs at h with hfw
      · simp at h
        rw [← hforce, h.symm]
      · simp at h
    · simp at h
    · simp at h
    · exact absurd h (by
        cases hm : scrollOf v.state s r <;>
          simp only [scrollStep] <;> (try split_ifs) <;> simp)
  · intro hscc
    have hfw : fullWriteOf v s r env = true := by
      simp [fullWriteOf, hforce, hscc]
    have htw : trWOf v s r env = [Event.selectionToDOM true] := by
      simp [trWOf, hfw, hforce, hscc]
    refine Or.inr (Or.inr (Or.inr (Or.inl ?_)))
    simp [htw]

/-- Folding the observer-discipline checker over events that are neither
pauses, resumes nor mutations leaves the state unchanged. -/
theorem neutral_chunk (l : List Event)
    (h : ∀ e ∈ l, isMut e = false ∧ e ≠ Event.observerStop ∧ e ≠ Event.observerStart)
    (r : Bool) : l.foldl obsRun (some r) = some r := by
  induction l with
  | nil => rfl
  | cons a as ih =>
      obtain ⟨h1, h2, h3⟩ := h a (by simp)
      have step : obsRun (some r) a = some r := by
        cases a <;> simp_all [obsRun, isMut]
      rw [List.foldl_cons, step]
      exact ih (fun e he => h e (by simp [he]))

/-- While the observer is paused, any events that are neither pauses nor
resumes (mutations included) keep it validly paused. -/
theorem stopped_chunk (l : List Event)
    (h : ∀ e ∈ l, e ≠ Event.observerStop ∧ e ≠ Event.observerStart) :
    l.foldl obsRun (some false) = some false := by
  induction l with
  | nil => rfl
  | cons a as ih =>
      obtain ⟨h2, h3⟩ := h a (by simp)
      have step : obsRun (some false) a = some false := by
        cases a <;> simp_all [obsRun]
      rw [List.foldl_cons, step]
      exact ih (fun e he => h e (by simp [he]))

theorem trPre_events (v : View) (s : EditorState) (r : Bool) (env : Env) :
    ∀ e ∈ trPreOf v s r env,
      isMut e = false ∧ e ≠ Event.observerStop ∧ e ≠ Event.observerStart := by
  intro e he
  simp only [trPreOf, List.mem_append, mem_ite_list, List.mem_singleton,
    List.not_mem_nil, and_false, or_false] at he
  rcases he with (⟨_, rfl⟩ | ⟨_, rfl⟩) | ⟨_, rfl⟩ <;> exact ⟨rfl, by simp, by simp⟩

theorem trDoc_events (v : View) (r : Bool) (env : Env) :
    ∀ e ∈ trDocOf v r env, e ≠ Event.observerStop ∧ e ≠ Event.observerStart := by
  intro e he
  unfold trDocOf at he
  split_ifs at he <;> simp at he <;>
    rcases he with rfl | rfl | rfl | rfl <;> exact ⟨by simp, by simp⟩

theorem trW_events (v : View) (s : EditorState) (r : Bool) (env : Env) :
    ∀ e ∈ trWOf v s r env, e ≠ Event.observerStop ∧ e ≠ Event.observerStart := by
  intro e he
  unfold trWOf at he
  split_ifs at he <;> simp at he
  · subst he; exact ⟨by simp, by simp⟩
  · rcases he with rfl | rfl <;> exact ⟨by simp, by simp⟩

theorem scroll_events_neutral (m : ScrollMode) (o : Bool) (env : Env) :
    ∀ e ∈ scrollStep m o env,
      isMut e = false ∧ e ≠ Event.observerStop ∧ e ≠ Event.observerStart := by
  intro e he
  cases m <;> simp only [scrollStep] at he <;> (try split_ifs at he) <;> simp at he
  · subst he; exact ⟨rfl, by simp, by simp⟩
  · subst he; exact ⟨rfl, by simp, by simp⟩
  · rcases he with rfl | rfl <;> exact ⟨rfl, by simp, by simp⟩
  · subst he; exact ⟨rfl, by simp, by simp⟩

/-- C9 counterexample: the pause/resume pairing is not exception-safe —
when the enclosed `selectionToDOM` mutation raises, the update propagates
the exception and the observer is left stopped (no resume in the trace). -/
theorem C9_counterexample :
    (updateStateInner viewW stateW false envW9).1 = none ∧
    Event.observerStop ∈ (updateStateInner viewW stateW false envW9).2 ∧
    Event.observerStart ∉ (updateStateInner viewW stateW false envW9).2 :=
  ⟨rfl, by decide, by decide⟩

/-- C9 (amended): in every non-raising run, all rendered-tree and
selection mutations of `updateStateInner` and `focus` happen strictly
between a pause and the matching resume of the mutation observer, and the
observer is running again when the operation returns; the pairing is not
exception-safe — a raising enclosed mutation leaves the observer stopped
(see the counterexample). -/
theorem C9_bracketed (v : View) (s : EditorState) (r : Bool) (env : Env) (v2 : View)
    (env2 : Env) (ht : env.selectionToDOMThrows = false)
    (ht2 : env2.selectionToDOMThrows = false) :
    bracketOK (updateStateInner v s r env).2 = true ∧ bracketOK (focus v2 env2).2 = true := by
  constructor
  · show bracketOK (traceOf v s r env) = true
    have hcond : (fullWriteOf v s r env && env.selectionToDOMThrows) = false := by simp [ht]
    rw [bracketOK, beq_iff_eq, traceOf, List.foldl_append,
      neutral_chunk _ (trPre_events v s r env) true]
    by_cases hsel : updateSelOf v s r env = true
    · simp only [hsel, if_true, hcond, Bool.false_eq_true, if_false]
      rw [List.foldl_cons]
      have h0 : obsRun (some true) Event.observerStop = some false := rfl
      rw [h0, List.foldl_append, stopped_chunk _ (trDoc_events v r env),
        List.foldl_append, stopped_chunk _ (trW_events v s r env), List.foldl_cons]
      have h1 : obsRun (some false) Event.observerStart = some true := rfl
      rw [h1, List.foldl_cons]
      have h2 : obsRun (some true) Event.pluginViews = some true := rfl
      rw [h2, neutral_chunk _ (scroll_events_neutral _ _ _) true]
    · have hsel' : updateSelOf v s r env = false := by
        cases h : updateSelOf v s r env
        · rfl
        · exact absurd h hsel
      simp only [hsel', Bool.false_eq_true, if_false]
      rw [List.foldl_cons]
      have h2 : obsRun (some true) Event.pluginViews = some true := rfl
      rw [h2, neutral_chunk _ (scroll_events_neutral _ _ _) true]
  · cases hed : v2.editable <;>
      simp [focus, ht2, bracketOK, obsRun, isMut, hed]

/-- C9 witness: a patching update and a focus call, both bracketed. -/
theorem C9_witness :
    bracketOK (updateStateInner viewW stateW false envW5).2 = true ∧
    bracketOK (focus viewW envW).2 = true :=
  C9_bracketed viewW stateW false envW5 viewW envW rfl rfl

theorem trPre_no_scroll (v : View) (s : EditorState) (r : Bool) (env : Env) :
    ∀ e ∈ trPreOf v s r env, isScrollEvent e = false := by
  intro e he
  simp only [trPreOf, List.mem_append, mem_ite_list, List.mem_singleton,
    List.not_mem_nil, and_false, or_false] at he
  rcases he with (⟨_, rfl⟩ | ⟨_, rfl⟩) | ⟨_, rfl⟩ <;> rfl

theorem trDoc_no_scroll (v : View) (r : Bool) (env : Env) :
    ∀ e ∈ trDocOf v r env, isScrollEvent e = false := by
  intro e he
  unfold trDocOf at he
  split_ifs at he <;> simp at he <;>
    rcases he with rfl | rfl | rfl | rfl <;> rfl

theorem trW_no_scroll (v : View) (s : EditorState) (r : Bool) (env : Env) :
    ∀ e ∈ trWOf v s r env, isScrollEvent e = false := by
  intro e he
  unfold trWOf at he
  split_ifs at he <;> simp at he
  · subst he; rfl
  · rcases he with rfl | rfl <;> rfl

/-- C6: scroll behavior of one update.  The events of the update are a
scroll-event-free prefix followed by exactly the scroll-resolution events,
and those resolve as: reconfiguration resets the scroll to the top; a
grown scroll-request counter scrolls to the selection, first offering the
`handleScrollToSelection` prop and scrolling only when no handler claimed
it; otherwise the snapshot (when one was taken in the earlier step) is
restored. -/
theorem C6_scroll_resolution (v : View) (s : EditorState) (r : Bool) (env : Env)
    (ht : env.selectionToDOMThrows = false) :
    (∃ A, (updateStateInner v s r env).2
        = A ++ scrollStep (scrollOf v.state s r) (storeScrollTaken v s r env) env ∧
      A.all (fun e => !(isScrollEvent e)) = true) ∧
    (r = true →
      scrollStep (scrollOf v.state s r) (storeScrollTaken v s r env) env
        = [Event.scrollTopZero]) ∧
    (r = false → s.scrollToSelection > v.state.scrollToSelection →
      scrollStep (scrollOf v.state s r) (storeScrollTaken v s r env) env
        = Event.offerHandleScroll ::
            (if env.handleScrollHandled then [] else [Event.scrollIntoView])) ∧
    (r = false → ¬(s.scrollToSelection > v.state.scrollToSelection) →
      scrollStep (scrollOf v.state s r) (storeScrollTaken v s r env) env
        = (if storeScrollTaken v s r env then [Event.resetScrollPos] else [])) := by
  have hcond : (fullWriteOf v s r env && env.selectionToDOMThrows) = false := by simp [ht]
  refine ⟨?_, ?_, ?_, ?_⟩
  · show ∃ A, traceOf v s r env = _ ∧ _
    have hpre : (trPreOf v s r env).all (fun e => !(isScrollEvent e)) = true :=
      List.all_eq_true.mpr (fun e he => by simp [trPre_no_scroll v s r env e he])
    by_cases hsel : updateSelOf v s r env = true
    · refine ⟨trPreOf v s r env ++ Event.observerStop :: (trDocOf v r env
        ++ (trWOf v s r env ++ [Event.observerStart, Event.pluginViews])), ?_, ?_⟩
      · simp only [traceOf, hsel, if_true, hcond, Bool.false_eq_true, if_false]
        simp [List.append_assoc]
      · have h1 : (trDocOf v r env).all (fun e => !(isScrollEvent e)) = true :=
          List.all_eq_true.mpr (fun e he => by simp [trDoc_no_scroll v r env e he])
        have h2 : (trWOf v s r env).all (fun e => !(isScrollEvent e)) = true :=
          List.all_eq_true.mpr (fun e he => by simp [trW_no_scroll v s r env e he])
        simp only [List.all_append, List.all_cons, hpre, h1, h2, Bool.true_and,
          Bool.and_true]
        try decide
    · have hsel' : updateSelOf v s r env = false := by
        cases h : updateSelOf v s r env
        · rfl
        · exact absurd h hsel
      refine ⟨trPreOf v s r env ++ [Event.pluginViews], ?_, ?_⟩
      · simp only [traceOf, hsel', Bool.false_eq_true, if_false]
        simp [List.append_assoc]
      · simp only [List.all_append, hpre, Bool.true_and]
        try decide
  · intro hr
    subst hr
    simp [scrollOf, scrollStep]
  · intro hr hgt
    subst hr
    simp [scrollOf, hgt, scrollStep]
  · intro hr hgt
    subst hr
    simp [scrollOf, hgt, scrollStep]

/-- C6 witness: a reconfiguration snaps the scroll to the top. -/
theorem C6_witness :
    scrollStep (scrollOf viewW.state stateW true) (storeScrollTaken viewW stateW true envW)
      envW = [Event.scrollTopZero] :=
  (C6_scroll_resolution viewW stateW true envW rfl).2.1 rfl

/-- C8 witness: a Chrome update whose selections share a block start at
the common depth minimum but differ at a deeper position — the detector
fires and the forced write happens. -/
theorem C8_witness :
    Event.selectionToDOM true ∈
      (updateStateInner viewW8 ⟨1, 4, ⟨4, 6, SelKind.text, 1, fun _ => 9⟩, false, 0, 0⟩
        false envW8).2 :=
  (C8_force_condition viewW8 ⟨1, 4, ⟨4, 6, SelKind.text, 1, fun _ => 9⟩, false, 0, 0⟩
      false envW8 (by decide) (by decide) (by decide) (by decide) (by decide)
      (by decide) (by decide)).mpr (by decide)

end PMView
